import Mathlib

/-!
Verification of the per-wheel suspension subsystem (carsuspension.h) and the
loading-screen progress bar (loadingscreen.cpp) of the VDrift repository.

Scalars (`btScalar`) are modelled as rationals (`ℚ`); vector/quaternion
geometry members (`orientation`, `position`, `steering_axis`,
`orientation_ext`) are omitted from the state model because no verified
property concerns them.  Member functions whose bodies are not part of the
sources (only declared in the header) are modelled from the specification;
each such definition carries a doc comment starting `Modelled from the spec:`.
-/

namespace VDrift

/-- Modelled from the spec: the `LinearInterp` piecewise-linear curve
(`linearinterp.h` is referenced by the header but its implementation is not
among the sources).  It stores an ordered sequence of (x, y) control points
with strictly increasing x, plus the constant value returned by an empty
curve. -/
structure LinearInterp where
  empty_value : ℚ
  points : List (ℚ × ℚ)
deriving DecidableEq

/-- Linear interpolation between two control points evaluated at `x`. -/
def lerp (p q : ℚ × ℚ) (x : ℚ) : ℚ :=
  p.2 + (q.2 - p.2) * (x - p.1) / (q.1 - p.1)

/-- Modelled from the spec: walk the tail of the control-point list holding
the previous point `p`; the first segment whose right end is at or past `x`
interpolates, and past the last point the last y value is returned. -/
def evalSeg : (ℚ × ℚ) → List (ℚ × ℚ) → ℚ → ℚ
  | p, [], _ => p.2
  | p, q :: rest, x => if x ≤ q.1 then lerp p q x else evalSeg q rest x

/-- Modelled from the spec: `LinearInterp::Interpolate`.  Clamps to the first
y value below the domain, to the last y value above it, interpolates linearly
between the bracketing control points inside it, and degenerates to a
constant function for zero or one control points. -/
def LinearInterp.Evaluate (c : LinearInterp) (x : ℚ) : ℚ :=
  match c.points with
  | [] => c.empty_value
  | p :: rest => if x ≤ p.1 then p.2 else evalSeg p rest x

/-- Control-point x values are strictly increasing. -/
def SortedStrict (pts : List (ℚ × ℚ)) : Prop :=
  List.Chain' (fun a b => a.1 < b.1) pts

instance (pts : List (ℚ × ℚ)) : Decidable (SortedStrict pts) :=
  inferInstanceAs (Decidable (List.Chain' _ pts))

/-- The immutable per-wheel configuration, following `CarSuspensionInfo`
in carsuspension.h (geometry vector `position` omitted). -/
structure CarSuspensionInfo where
  spring_constant : ℚ
  anti_roll : ℚ
  bounce : ℚ
  rebound : ℚ
  travel : ℚ
  damper_factors : LinearInterp
  spring_factors : LinearInterp
  steering_angle : ℚ
  ackermann : ℚ
  camber : ℚ
  caster : ℚ
  toe : ℚ
  inv_mass : ℚ
deriving DecidableEq

/-- The mutable suspension state, following the protected scalar members of
`CarSuspension` in carsuspension.h (quaternion/vector members omitted). -/
structure CarSuspension where
  info : CarSuspensionInfo
  steering_angle : ℚ
  spring_force : ℚ
  damp_force : ℚ
  force : ℚ
  overtravel : ℚ
  displacement : ℚ
  last_displacement : ℚ
  wheel_force : ℚ
  wheel_contact : ℚ
deriving DecidableEq

/-- `GetDisplacement` accessor from carsuspension.h. -/
def CarSuspension.GetDisplacement (s : CarSuspension) : ℚ :=
  s.displacement

/-- `GetDisplacementFraction` from carsuspension.h:
`displacement / info.travel`. -/
def CarSuspension.GetDisplacementFraction (s : CarSuspension) : ℚ :=
  s.displacement / s.info.travel

/-- `GetForce` accessor from carsuspension.h. -/
def CarSuspension.GetForce (s : CarSuspension) : ℚ :=
  s.force

/-- `GetWheelForce` accessor from carsuspension.h. -/
def CarSuspension.GetWheelForce (s : CarSuspension) : ℚ :=
  s.wheel_force

/-- `GetOvertravel` accessor from carsuspension.h. -/
def CarSuspension.GetOvertravel (s : CarSuspension) : ℚ :=
  s.overtravel

/-- Modelled from the spec: `CarSuspension::SetSteering` (body not among the
sources).  The input, a fraction of maximum lock, is clamped to [-1, 1] and
then scaled by the maximum steering angle `info.steering_angle`. -/
def CarSuspension.SetSteering (s : CarSuspension) (value : ℚ) : CarSuspension :=
  let v := if value < -1 then -1 else if value > 1 then 1 else value
  { s with steering_angle := v * s.info.steering_angle }

/-- Modelled from the spec: `CarSuspension::SetDisplacement` (body not among
the sources).  Overrides the displacement, clamped to `[0, info.travel]`;
a raw value outside that range sets the overtravel flag. -/
def CarSuspension.SetDisplacement (s : CarSuspension) (value : ℚ) : CarSuspension :=
  let d := if value > s.info.travel then s.info.travel
           else if value < 0 then 0 else value
  let ot : ℚ := if value < 0 ∨ value > s.info.travel then 1 else 0
  { s with displacement := d, overtravel := ot }

/-- Modelled from the spec: the rebound-limited maximum single-tick extension,
"derived from `dt` and current damping".  The damper valve limits the
extension speed to the terminal velocity at which the rebound damping force
balances the spring force, `spring_force / rebound`; over one tick of length
`dt` the wheel may therefore extend by at most that velocity times `dt`.
With zero rebound damping the extension is not damper-limited, so the full
travel is allowed; the limit is never negative. -/
def CarSuspension.maxReboundDelta (s : CarSuspension) (dt : ℚ) : ℚ :=
  if 0 < s.info.rebound then max 0 (s.spring_force / s.info.rebound * dt)
  else s.info.travel

/-- Modelled from the spec: `CarSuspension::UpdateDisplacement` (body not
among the sources).  Stores the previous displacement into
`last_displacement`, advances the displacement by `displacement_delta` with
the negative (extension) delta limited to the rebound-limited maximum, sets
the overtravel flag when the unclamped result falls outside `[0, travel]`,
then clamps. -/
def CarSuspension.UpdateDisplacement (s : CarSuspension)
    (displacement_delta dt : ℚ) : CarSuspension :=
  let delta := max displacement_delta (-(s.maxReboundDelta dt))
  let raw := s.displacement + delta
  let ot : ℚ := if raw < 0 ∨ raw > s.info.travel then 1 else 0
  let d := if raw > s.info.travel then s.info.travel
           else if raw < 0 then 0 else raw
  { s with last_displacement := s.displacement, displacement := d,
           overtravel := ot }

/-- Modelled from the spec: `CarSuspension::UpdateForces` (body not among the
sources).  Computes velocity from the displacement difference, spring force
scaled by the spring factor curve, asymmetric (bounce/rebound) damping force
scaled by the damper factor curve, the anti-roll term proportional to
`roll_delta`, clamps the sum to be non-negative, and sets the wheel force to
the equal and opposite reaction. -/
def CarSuspension.UpdateForces (s : CarSuspension)
    (roll_delta dt : ℚ) : CarSuspension :=
  let velocity := (s.displacement - s.last_displacement) / dt
  let fraction := s.displacement / s.info.travel
  let sf := s.info.spring_constant * s.displacement *
            s.info.spring_factors.Evaluate fraction
  let df := (if 0 ≤ velocity then s.info.bounce else s.info.rebound) *
            velocity * s.info.damper_factors.Evaluate fraction
  let ar := s.info.anti_roll * roll_delta
  let f := max (sf + df + ar) 0
  { s with spring_force := sf, damp_force := df, force := f,
           wheel_force := -f }

/-- Modelled from the spec: the caller contract that `dt` must be positive;
a zero or negative `dt` fails fast with an error result instead of silently
producing an invalid state through the velocity division. -/
def CarSuspension.UpdateDisplacementChecked (s : CarSuspension)
    (displacement_delta dt : ℚ) : Option CarSuspension :=
  if 0 < dt then some (s.UpdateDisplacement displacement_delta dt) else none

/-- Modelled from the spec: the caller contract that `dt` must be positive;
a zero or negative `dt` fails fast with an error result instead of silently
producing an invalid state through the velocity division. -/
def CarSuspension.UpdateForcesChecked (s : CarSuspension)
    (roll_delta dt : ℚ) : Option CarSuspension :=
  if 0 < dt then some (s.UpdateForces roll_delta dt) else none

/-- `CarSuspension::Serialize` from carsuspension.h: the serialized record,
in source order `steering_angle`, `displacement`, `last_displacement`,
`force` (the generic `_SERIALIZE_` writer from macros.h is modelled as
emitting the fields into an ordered flat record). -/
def CarSuspension.Serialize (s : CarSuspension) : List ℚ :=
  [s.steering_angle, s.displacement, s.last_displacement, s.force]

/-- `CarSuspension::Serialize` in read mode: consume a flat ordered record of
exactly four values back into the same four fields, failing on a malformed
record. -/
def CarSuspension.Deserialize (s : CarSuspension) (data : List ℚ) :
    Option CarSuspension :=
  match data with
  | [a, b, c, d] =>
      some { s with steering_angle := a, displacement := b,
                    last_displacement := c, force := d }
  | _ => none

/-- Modelled from the spec: the per-wheel configuration values the loader
reads from the `PTree` configuration tree (the `PTree` parser is an external
collaborator; only the values relevant to suspension construction are
modelled). -/
structure WheelConfig where
  spring_constant : ℚ
  anti_roll : ℚ
  bounce : ℚ
  rebound : ℚ
  travel : ℚ
  damper_points : List (ℚ × ℚ)
  spring_points : List (ℚ × ℚ)
  steering_angle : ℚ
  ackermann : ℚ
  camber : ℚ
  caster : ℚ
  toe : ℚ
deriving DecidableEq

/-- Control-point x values strictly increasing, as a boolean check used by
the loader to reject malformed curves. -/
def wellFormedCurve : List (ℚ × ℚ) → Bool
  | [] => true
  | [_] => true
  | p :: q :: rest => decide (p.1 < q.1) && wellFormedCurve (q :: rest)

/-- Modelled from the spec: `CarSuspension::Load` (body not among the
sources).  Validates all parameters — positive travel, positive unsprung
mass, non-negative spring/damper/anti-roll constants, well-formed factor
curves — and on failure returns the human-readable diagnostic written to the
error stream, constructing no suspension object; on success it returns the
suspension initialized to the fully extended rest position. -/
def Load (cfg : WheelConfig) (wheel_mass : ℚ) : Except String CarSuspension :=
  if ¬ 0 < cfg.travel then
    .error "carsuspension: travel must be a positive value"
  else if ¬ 0 < wheel_mass then
    .error "carsuspension: wheel mass must be a positive value"
  else if ¬ 0 ≤ cfg.spring_constant then
    .error "carsuspension: spring constant must be non-negative"
  else if ¬ 0 ≤ cfg.anti_roll then
    .error "carsuspension: anti-roll constant must be non-negative"
  else if ¬ 0 ≤ cfg.bounce then
    .error "carsuspension: bounce damping must be non-negative"
  else if ¬ 0 ≤ cfg.rebound then
    .error "carsuspension: rebound damping must be non-negative"
  else if ¬ wellFormedCurve cfg.damper_points then
    .error "carsuspension: malformed damper factor curve"
  else if ¬ wellFormedCurve cfg.spring_points then
    .error "carsuspension: malformed spring factor curve"
  else
    .ok
      { info :=
          { spring_constant := cfg.spring_constant
            anti_roll := cfg.anti_roll
            bounce := cfg.bounce
            rebound := cfg.rebound
            travel := cfg.travel
            damper_factors := ⟨1, cfg.damper_points⟩
            spring_factors := ⟨1, cfg.spring_points⟩
            steering_angle := cfg.steering_angle
            ackermann := cfg.ackermann
            camber := cfg.camber
            caster := cfg.caster
            toe := cfg.toe
            inv_mass := 1 / wheel_mass }
        steering_angle := 0
        spring_force := 0
        damp_force := 0
        force := 0
        overtravel := 0
        displacement := 0
        last_displacement := 0
        wheel_force := 0
        wheel_contact := 0 }

end VDrift

namespace LOADINGSCREEN

/-- The fields of `LOADINGSCREEN` that `Update` reads (set by `Init` in
loadingscreen.cpp). -/
structure Vars where
  w : ℚ
  h : ℚ
  hscale : ℚ
deriving DecidableEq

/-- `LOADINGSCREEN::Update` from loadingscreen.cpp: clamp the percentage to
`[0, 1]` (first raising negatives to 0, then lowering values above 1 to 1)
and compute the four corner coordinates of the progress bar billboard passed
to `barverts.SetToBillboard`. -/
def Update (v : Vars) (percentage : ℚ) : ℚ × ℚ × ℚ × ℚ :=
  let p1 := if percentage < 0 then 0 else percentage
  let p2 := if p1 > 1 then 1 else p1
  (1/2 - v.w * (1/2), 1/2 - v.h * (1/2) * v.hscale,
   1/2 - v.w * (1/2) + v.w * p2, 1/2 + v.h * (1/2) * v.hscale)

end LOADINGSCREEN

namespace VDrift

/-- A concrete S2000-like configuration used to instantiate universally
quantified theorems (spring constant 50000, travel 0.2, max steering 30). -/
def testInfo : CarSuspensionInfo :=
  { spring_constant := 50000
    anti_roll := 8000
    bounce := 2500
    rebound := 4000
    travel := 1/5
    damper_factors := ⟨1, []⟩
    spring_factors := ⟨1, []⟩
    steering_angle := 30
    ackermann := 0
    camber := 0
    caster := 0
    toe := 0
    inv_mass := 1/20 }

/-- A concrete suspension state at half travel. -/
def testState : CarSuspension :=
  { info := testInfo
    steering_angle := 0
    spring_force := 5000
    damp_force := 0
    force := 5000
    overtravel := 0
    displacement := 1/10
    last_displacement := 1/10
    wheel_force := -5000
    wheel_contact := 0 }

/-- Claim C1: after every call to `UpdateForces(roll_delta, dt)`, for any
combination of spring, damping and anti-roll contributions, the resulting
force equals `spring_force + damp_force + anti_roll_term` clamped to be
non-negative, and `wheel_force` equals `-force`. -/
theorem claim_C1_update_forces_clamped (s : CarSuspension) (roll_delta dt : ℚ) :
    (s.UpdateForces roll_delta dt).force =
      max ((s.UpdateForces roll_delta dt).spring_force +
           (s.UpdateForces roll_delta dt).damp_force +
           s.info.anti_roll * roll_delta) 0 ∧
    0 ≤ (s.UpdateForces roll_delta dt).force ∧
    (s.UpdateForces roll_delta dt).wheel_force =
      -(s.UpdateForces roll_delta dt).force :=
  ⟨rfl, le_max_right _ _, rfl⟩

/-- Claim C4: `SetDisplacement(v)` sets the displacement to `v` clamped to
`[0, info.travel]`, and `GetDisplacement` afterward returns exactly the
clamped value. -/
theorem claim_C4_set_displacement_clamps (s : CarSuspension) (v : ℚ)
    (h : 0 ≤ s.info.travel) :
    (s.SetDisplacement v).GetDisplacement = min (max v 0) s.info.travel ∧
    (v < 0 → (s.SetDisplacement v).GetDisplacement = 0) ∧
    (v > s.info.travel → (s.SetDisplacement v).GetDisplacement = s.info.travel) ∧
    (0 ≤ v → v ≤ s.info.travel → (s.SetDisplacement v).GetDisplacement = v) := by
  simp only [CarSuspension.SetDisplacement, CarSuspension.GetDisplacement]
  split_ifs with h1 h2
  · refine ⟨?_, fun hv => by linarith, fun _ => rfl, fun hv hv2 => by linarith⟩
    rw [max_eq_left (by linarith), min_eq_right (by linarith)]
  · refine ⟨?_, fun _ => rfl, fun hv => by linarith, fun hv _ => by linarith⟩
    rw [max_eq_right (by linarith), min_eq_left h]
  · refine ⟨?_, fun hv => by linarith, fun hv => by linarith, fun _ _ => rfl⟩
    rw [max_eq_left (by linarith), min_eq_left (by linarith)]

/-- Claim C4 witness: clamping at both bounds and the identity case on the
concrete test state with travel 0.2. -/
theorem claim_C4_witness :
    (testState.SetDisplacement (-1)).GetDisplacement = 0 ∧
    (testState.SetDisplacement (1/4)).GetDisplacement = 1/5 ∧
    (testState.SetDisplacement (1/10)).GetDisplacement = 1/10 :=
  ⟨(claim_C4_set_displacement_clamps testState (-1)
      (by norm_num [testState, testInfo])).2.1 (by norm_num),
   (claim_C4_set_displacement_clamps testState (1/4)
      (by norm_num [testState, testInfo])).2.2.1
      (by norm_num [testState, testInfo]),
   (claim_C4_set_displacement_clamps testState (1/10)
      (by norm_num [testState, testInfo])).2.2.2
     (by norm_num) (by norm_num [testState, testInfo])⟩

/-- Two `SetSteering` calls whose clamped inputs agree produce the same
state. -/
theorem setSteering_congr (s : CarSuspension) {v w : ℚ}
    (h : (if v < -1 then (-1 : ℚ) else if v > 1 then 1 else v) =
         (if w < -1 then (-1 : ℚ) else if w > 1 then 1 else w)) :
    s.SetSteering v = s.SetSteering w := by
  simp only [CarSuspension.SetSteering, h]

/-- Claim C5: `SetSteering(value)` clamps the input to `[-1, 1]` and scales
by `info.steering_angle`; with a 30-degree maximum, `SetSteering(1)` yields
30 degrees, and `SetSteering(2)` produces exactly the same state as
`SetSteering(1)`. -/
theorem claim_C5_set_steering_clamps (s : CarSuspension) (v : ℚ) :
    (1 ≤ v → s.SetSteering v = s.SetSteering 1) ∧
    (v ≤ -1 → s.SetSteering v = s.SetSteering (-1)) ∧
    (s.info.steering_angle = 30 →
      (s.SetSteering 1).steering_angle = 30 ∧
      s.SetSteering 2 = s.SetSteering 1) := by
  refine ⟨fun h1 => ?_, fun h1 => ?_, fun h30 => ⟨?_, ?_⟩⟩
  · apply setSteering_congr
    have hv : ¬ v < -1 := by linarith
    by_cases h2 : v > 1
    · rw [if_neg hv, if_pos h2]; norm_num
    · have hone : v = 1 := le_antisymm (not_lt.mp h2) h1
      subst hone; norm_num
  · apply setSteering_congr
    by_cases h2 : v < -1
    · rw [if_pos h2]; norm_num
    · have hone : v = -1 := le_antisymm h1 (not_lt.mp h2)
      subst hone; norm_num
  · simp only [CarSuspension.SetSteering]
    norm_num [h30]
  · apply setSteering_congr
    norm_num

/-- Claim C5 witness: on the concrete test state with maximum steering angle
30, `SetSteering 2` equals `SetSteering 1`, which yields 30, and
`SetSteering (-3)` equals `SetSteering (-1)`. -/
theorem claim_C5_witness :
    testState.SetSteering 2 = testState.SetSteering 1 ∧
    testState.SetSteering (-3) = testState.SetSteering (-1) ∧
    (testState.SetSteering 1).steering_angle = 30 :=
  ⟨(claim_C5_set_steering_clamps testState 2).1 (by norm_num),
   (claim_C5_set_steering_clamps testState (-3)).2.1 (by norm_num),
   ((claim_C5_set_steering_clamps testState 2).2.2 rfl).1⟩

/-- Claim C6: the checked update entry points require `dt > 0`; a call with
zero or negative `dt` fails fast with an error result instead of producing
state through the velocity division, and a positive `dt` performs the
update. -/
theorem claim_C6_positive_dt_contract (s : CarSuspension)
    (delta roll dt : ℚ) :
    (dt ≤ 0 →
      s.UpdateDisplacementChecked delta dt = none ∧
      s.UpdateForcesChecked roll dt = none) ∧
    (0 < dt →
      s.UpdateDisplacementChecked delta dt =
        some (s.UpdateDisplacement delta dt) ∧
      s.UpdateForcesChecked roll dt = some (s.UpdateForces roll dt)) := by
  constructor
  · intro h
    constructor
    · simp only [CarSuspension.UpdateDisplacementChecked,
        if_neg (not_lt.mpr h)]
    · simp only [CarSuspension.UpdateForcesChecked, if_neg (not_lt.mpr h)]
  · intro h
    constructor
    · simp only [CarSuspension.UpdateDisplacementChecked, if_pos h]
    · simp only [CarSuspension.UpdateForcesChecked, if_pos h]

/-- Claim C6 witness: `dt = 0` yields `none` from both checked updates, and
`dt = 1` performs the update. -/
theorem claim_C6_witness :
    (testState.UpdateDisplacementChecked 0 0 = none ∧
     testState.UpdateForcesChecked 0 0 = none) ∧
    testState.UpdateForcesChecked 0 1 = some (testState.UpdateForces 0 1) :=
  ⟨(claim_C6_positive_dt_contract testState 0 0 0).1 (by norm_num),
   ((claim_C6_positive_dt_contract testState 0 0 1).2 (by norm_num)).2⟩

/-- Linear interpolation at the left control point returns its y value. -/
theorem lerp_left (p q : ℚ × ℚ) : lerp p q p.1 = p.2 := by
  simp [lerp]

/-- Linear interpolation at the right control point returns its y value. -/
theorem lerp_right (p q : ℚ × ℚ) (h : p.1 < q.1) : lerp p q q.1 = q.2 := by
  have hne : q.1 - p.1 ≠ 0 := sub_ne_zero.mpr (ne_of_gt h)
  unfold lerp
  rw [mul_div_assoc, div_self hne, mul_one]
  ring

/-- Splitting a strict sortedness witness at the head. -/
theorem sortedStrict_cons {p q : ℚ × ℚ} {rest : List (ℚ × ℚ)}
    (h : SortedStrict (p :: q :: rest)) :
    p.1 < q.1 ∧ SortedStrict (q :: rest) :=
  List.chain'_cons.mp h

/-- In a strictly sorted control-point list the x values grow with the
index. -/
theorem sorted_get_lt {pts : List (ℚ × ℚ)} (h : SortedStrict pts) {i j : ℕ}
    (hi : i < pts.length) (hj : j < pts.length) (hij : i < j) :
    (pts.get ⟨i, hi⟩).1 < (pts.get ⟨j, hj⟩).1 := by
  have hm : List.Chain' (· < ·) (pts.map Prod.fst) :=
    (List.chain'_map Prod.fst).mpr h
  have hp := List.chain'_iff_pairwise.mp hm
  have hg := List.pairwise_iff_get.mp hp ⟨i, by simpa using hi⟩
    ⟨j, by simpa using hj⟩ hij
  simpa using hg

/-- The head of a strictly sorted control-point list has the smallest x. -/
theorem head_le_getLast {q : ℚ × ℚ} {rest : List (ℚ × ℚ)}
    (h : SortedStrict (q :: rest)) :
    q.1 ≤ ((q :: rest).getLast (List.cons_ne_nil q rest)).1 := by
  induction rest generalizing q with
  | nil => simp [List.getLast]
  | cons r t ih =>
    have h1 : q.1 < r.1 := (sortedStrict_cons h).1
    have h2 : SortedStrict (r :: t) := (sortedStrict_cons h).2
    rw [List.getLast_cons (List.cons_ne_nil r t)]
    exact le_trans (le_of_lt h1) (ih h2)

/-- Past the last control point the segment walk returns the last y value. -/
theorem evalSeg_getLast {x : ℚ} :
    ∀ {rest : List (ℚ × ℚ)} {p : ℚ × ℚ}, SortedStrict (p :: rest) →
      ((p :: rest).getLast (List.cons_ne_nil p rest)).1 ≤ x →
      evalSeg p rest x = ((p :: rest).getLast (List.cons_ne_nil p rest)).2 := by
  intro rest
  induction rest with
  | nil =>
    intro p _ _
    simp [evalSeg, List.getLast]
  | cons q t ih =>
    intro p h hx
    have h1 : p.1 < q.1 := (sortedStrict_cons h).1
    have h2 : SortedStrict (q :: t) := (sortedStrict_cons h).2
    rw [List.getLast_cons (List.cons_ne_nil q t)] at hx ⊢
    show (if x ≤ q.1 then lerp p q x else evalSeg q t x) = _
    by_cases hq : x ≤ q.1
    · have hle := head_le_getLast h2
      have hx1 : x = q.1 := le_antisymm hq (le_trans hle hx)
      cases t with
      | nil =>
        rw [if_pos hq, hx1]
        simp only [List.getLast_singleton]
        exact lerp_right p q h1
      | cons r t2 =>
        exfalso
        have h3 : q.1 < r.1 := (sortedStrict_cons h2).1
        have h4 := head_le_getLast (sortedStrict_cons h2).2
        rw [List.getLast_cons (List.cons_ne_nil r t2)] at hx
        linarith
    · rw [if_neg hq]
      exact ih h2 hx

/-- Evaluation at or past the last control point clamps to the last y
value. -/
theorem evaluate_getLast (c : LinearInterp) (x : ℚ)
    (h : SortedStrict c.points) (hne : c.points ≠ [])
    (hx : (c.points.getLast hne).1 ≤ x) :
    c.Evaluate x = (c.points.getLast hne).2 := by
  obtain ⟨d, pts⟩ := c
  cases pts with
  | nil => exact absurd rfl hne
  | cons p rest =>
    show (if x ≤ p.1 then p.2 else evalSeg p rest x) = _
    by_cases hp : x ≤ p.1
    · have hle := head_le_getLast h
      cases rest with
      | nil =>
        rw [if_pos hp]
        simp [List.getLast]
      | cons q t =>
        exfalso
        have h1 := (sortedStrict_cons h).1
        have h4 := head_le_getLast (sortedStrict_cons h).2
        rw [List.getLast_cons (List.cons_ne_nil q t)] at hx
        linarith
    · rw [if_neg hp]
      exact evalSeg_getLast h hx

/-- Inside the domain, evaluation interpolates linearly between the two
bracketing control points. -/
theorem evaluate_bracket :
    ∀ (i : ℕ) (d : ℚ) (pts : List (ℚ × ℚ)) (x : ℚ),
      SortedStrict pts →
      ∀ (hlen : i + 1 < pts.length),
        (pts.get ⟨i, Nat.lt_of_succ_lt hlen⟩).1 ≤ x →
        x ≤ (pts.get ⟨i + 1, hlen⟩).1 →
        LinearInterp.Evaluate ⟨d, pts⟩ x =
          lerp (pts.get ⟨i, Nat.lt_of_succ_lt hlen⟩)
               (pts.get ⟨i + 1, hlen⟩) x := by
  intro i
  induction i with
  | zero =>
    intro d pts x hs hlen hl hr
    cases pts with
    | nil => simp at hlen
    | cons p tail =>
      cases tail with
      | nil => simp at hlen
      | cons q rest =>
        have h1 : p.1 < q.1 := (sortedStrict_cons hs).1
        show (if x ≤ p.1 then p.2 else evalSeg p (q :: rest) x) = lerp p q x
        by_cases hp : x ≤ p.1
        · rw [if_pos hp]
          have hxp : x = p.1 := le_antisymm hp hl
          rw [hxp, lerp_left]
        · rw [if_neg hp]
          show (if x ≤ q.1 then lerp p q x else evalSeg q rest x) = lerp p q x
          rw [if_pos (show x ≤ q.1 from hr)]
  | succ j ih =>
    intro d pts x hs hlen hl hr
    cases pts with
    | nil => simp at hlen
    | cons p tail =>
      cases tail with
      | nil => simp at hlen
      | cons q rest =>
        have hs2 : SortedStrict (q :: rest) := (sortedStrict_cons hs).2
        have hpq : p.1 < q.1 := (sortedStrict_cons hs).1
        have hlen' : j + 1 < (q :: rest).length :=
          Nat.lt_of_succ_lt_succ hlen
        have hl' : ((q :: rest).get ⟨j, Nat.lt_of_succ_lt hlen'⟩).1 ≤ x := hl
        have hr' : x ≤ ((q :: rest).get ⟨j + 1, hlen'⟩).1 := hr
        have hq_le : q.1 ≤ ((q :: rest).get ⟨j, Nat.lt_of_succ_lt hlen'⟩).1 := by
          cases j with
          | zero => exact le_refl q.1
          | succ k =>
            exact le_of_lt (sorted_get_lt hs2 (by simp)
              (Nat.lt_of_succ_lt hlen') (Nat.succ_pos k))
        have hpx : p.1 < x := lt_of_lt_of_le hpq (le_trans hq_le hl')
        show (if x ≤ p.1 then p.2 else evalSeg p (q :: rest) x) = _
        rw [if_neg (not_le.mpr hpx)]
        show (if x ≤ q.1 then lerp p q x else evalSeg q rest x) = _
        by_cases hq : x ≤ q.1
        · have hxq : x = q.1 := le_antisymm hq (le_trans hq_le hl')
          cases j with
          | zero =>
            rw [if_pos hq, hxq, lerp_right p q hpq]
            exact (lerp_left q _).symm
          | succ k =>
            exfalso
            have hlt := sorted_get_lt hs2
              (show 0 < (q :: rest).length by simp)
              (Nat.lt_of_succ_lt hlen') (Nat.succ_pos k)
            have : q.1 < ((q :: rest).get
                ⟨k + 1, Nat.lt_of_succ_lt hlen'⟩).1 := hlt
            linarith
        · rw [if_neg hq]
          have hIH := ih d (q :: rest) x hs2 hlen' hl' hr'
          have hev : LinearInterp.Evaluate ⟨d, q :: rest⟩ x =
              evalSeg q rest x := by
            show (if x ≤ q.1 then q.2 else evalSeg q rest x) = _
            rw [if_neg hq]
          rw [hev] at hIH
          exact hIH

/-- A concrete configuration whose travel parameter is invalid. -/
def badTravelConfig : WheelConfig :=
  { spring_constant := 50000
    anti_roll := 8000
    bounce := 2500
    rebound := 4000
    travel := -1
    damper_points := []
    spring_points := []
    steering_angle := 30
    ackermann := 0
    camber := 0
    caster := 0
    toe := 0 }

/-- Claim C7: for an invalid configuration (non-positive travel, such as
`travel = -1`, or non-positive unsprung mass), `Load` fails, produces a
non-empty human-readable diagnostic, and returns no suspension instance. -/
theorem claim_C7_load_rejects_invalid (cfg : WheelConfig) (wheel_mass : ℚ)
    (h : cfg.travel ≤ 0 ∨ wheel_mass ≤ 0) :
    ∃ msg : String, Load cfg wheel_mass = .error msg ∧ msg ≠ "" ∧
      ∀ s : CarSuspension, Load cfg wheel_mass ≠ .ok s := by
  unfold Load
  rcases h with h | h
  · rw [if_pos (not_lt.mpr h)]
    exact ⟨_, rfl, by simp, fun s hs => Except.noConfusion hs⟩
  · by_cases ht : 0 < cfg.travel
    · rw [if_neg (not_not_intro ht), if_pos (not_lt.mpr h)]
      exact ⟨_, rfl, by simp, fun s hs => Except.noConfusion hs⟩
    · rw [if_pos ht]
      exact ⟨_, rfl, by simp, fun s hs => Except.noConfusion hs⟩

/-- Claim C7 witness: the loader rejects the concrete configuration with
`travel = -1` and also a zero wheel mass. -/
theorem claim_C7_witness :
    (∃ msg : String, Load badTravelConfig 20 = .error msg ∧ msg ≠ "" ∧
      ∀ s : CarSuspension, Load badTravelConfig 20 ≠ .ok s) ∧
    (∃ msg : String,
      Load { badTravelConfig with travel := 1/5 } 0 = .error msg ∧
      msg ≠ "" ∧
      ∀ s : CarSuspension,
        Load { badTravelConfig with travel := 1/5 } 0 ≠ .ok s) :=
  ⟨claim_C7_load_rejects_invalid badTravelConfig 20
     (Or.inl (by norm_num [badTravelConfig])),
   claim_C7_load_rejects_invalid { badTravelConfig with travel := 1/5 } 0
     (Or.inr (by norm_num))⟩

/-- The rebound-limited maximum extension is never negative when the state
is within travel. -/
theorem maxReboundDelta_nonneg (s : CarSuspension) (dt : ℚ)
    (h : 0 ≤ s.info.travel) : 0 ≤ s.maxReboundDelta dt := by
  unfold CarSuspension.maxReboundDelta
  split_ifs with hr
  · exact le_max_left 0 _
  · exact h

/-- Claim C2: a single `UpdateDisplacement(displacement_delta, dt)` call
never decreases the displacement (extends the wheel) by more than the
rebound-limited maximum derived from `dt` and the current damping, even when
`displacement_delta` requests a larger negative jump. -/
theorem claim_C2_rebound_limited (s : CarSuspension) (delta dt : ℚ)
    (h0 : 0 ≤ s.displacement) (h1 : s.displacement ≤ s.info.travel)
    (hdt : 0 < dt) :
    s.displacement - (s.UpdateDisplacement delta dt).displacement ≤
      s.maxReboundDelta dt ∧
    0 ≤ s.maxReboundDelta dt := by
  have hmrd : 0 ≤ s.maxReboundDelta dt :=
    maxReboundDelta_nonneg s dt (le_trans h0 h1)
  refine ⟨?_, hmrd⟩
  have hmax : -(s.maxReboundDelta dt) ≤ max delta (-(s.maxReboundDelta dt)) :=
    le_max_right _ _
  simp only [CarSuspension.UpdateDisplacement]
  split_ifs with hA hB
  · linarith
  · linarith
  · linarith

/-- Claim C2 witness: from half travel (0.1 of 0.2), a requested delta of -1
with `dt = 1/100` is limited; the witness instantiates the bound at the
concrete test state. -/
theorem claim_C2_witness :
    testState.displacement -
      (testState.UpdateDisplacement (-1) (1/100)).displacement ≤
      testState.maxReboundDelta (1/100) :=
  (claim_C2_rebound_limited testState (-1) (1/100)
    (by norm_num [testState])
    (by norm_num [testState, testInfo])
    (by norm_num)).1

/-- Clamping to `[0, t]` lands in `[0, t]`. -/
theorem clamp_mem {x t : ℚ} (ht : 0 ≤ t) :
    0 ≤ (if x > t then t else if x < 0 then 0 else x) ∧
    (if x > t then t else if x < 0 then 0 else x) ≤ t := by
  split_ifs <;> constructor <;> linarith

/-- The overtravel flag written by the model is nonzero exactly on raw
values outside `[0, t]`. -/
theorem overtravel_flag_iff {raw t : ℚ} :
    ((if raw < 0 ∨ raw > t then (1 : ℚ) else 0) ≠ 0 ↔
      (raw < 0 ∨ raw > t)) := by
  split_ifs with h
  · simp [h]
  · simp [h]

/-- Claim C3: for positive travel, `0 ≤ displacement ≤ travel` holds after
`SetDisplacement` and after `UpdateDisplacement`, the overtravel flag is set
exactly when the raw pre-clamp value fell outside `[0, travel]`, and the
displacement fraction `displacement / travel` lies in `[0, 1]`. -/
theorem claim_C3_displacement_invariant (s : CarSuspension)
    (v delta dt : ℚ) (htravel : 0 < s.info.travel) :
    (0 ≤ (s.SetDisplacement v).displacement ∧
     (s.SetDisplacement v).displacement ≤ s.info.travel) ∧
    ((s.SetDisplacement v).overtravel ≠ 0 ↔
      (v < 0 ∨ v > s.info.travel)) ∧
    (0 ≤ (s.SetDisplacement v).GetDisplacementFraction ∧
     (s.SetDisplacement v).GetDisplacementFraction ≤ 1) ∧
    (0 ≤ (s.UpdateDisplacement delta dt).displacement ∧
     (s.UpdateDisplacement delta dt).displacement ≤ s.info.travel) ∧
    ((s.UpdateDisplacement delta dt).overtravel ≠ 0 ↔
      (s.displacement + max delta (-(s.maxReboundDelta dt)) < 0 ∨
       s.displacement + max delta (-(s.maxReboundDelta dt)) >
         s.info.travel)) ∧
    (0 ≤ (s.UpdateDisplacement delta dt).GetDisplacementFraction ∧
     (s.UpdateDisplacement delta dt).GetDisplacementFraction ≤ 1) := by
  have ht : 0 ≤ s.info.travel := le_of_lt htravel
  have hset := clamp_mem (x := v) ht
  have hraw := clamp_mem
    (x := s.displacement + max delta (-(s.maxReboundDelta dt))) ht
  refine ⟨hset, ?_, ?_, hraw, ?_, ?_⟩
  · exact overtravel_flag_iff
  · simp only [CarSuspension.GetDisplacementFraction,
      CarSuspension.SetDisplacement]
    exact ⟨div_nonneg hset.1 ht, (div_le_one htravel).mpr hset.2⟩
  · exact overtravel_flag_iff
  · simp only [CarSuspension.GetDisplacementFraction,
      CarSuspension.UpdateDisplacement]
    exact ⟨div_nonneg hraw.1 ht, (div_le_one htravel).mpr hraw.2⟩

/-- Claim C3 witness: the invariant instantiated at the concrete test state,
with an overshooting `SetDisplacement 1` raising the overtravel flag. -/
theorem claim_C3_witness :
    (0 ≤ (testState.SetDisplacement 1).displacement ∧
     (testState.SetDisplacement 1).displacement ≤ testState.info.travel) ∧
    ((testState.SetDisplacement 1).overtravel ≠ 0 ↔
      ((1 : ℚ) < 0 ∨ (1 : ℚ) > testState.info.travel)) ∧
    (0 ≤ (testState.UpdateDisplacement (1/100) (1/100)).GetDisplacementFraction ∧
     (testState.UpdateDisplacement (1/100) (1/100)).GetDisplacementFraction ≤ 1) := by
  have h := claim_C3_displacement_invariant testState 1 (1/100) (1/100)
    (by norm_num [testState, testInfo])
  exact ⟨h.1, h.2.1, h.2.2.2.2.2⟩

/-- Claim C9: for a control-point table with strictly increasing x values,
`Evaluate(x)` returns the linear interpolation between the two bracketing
control points inside the domain, the first or last y value outside it (no
extrapolation), and behaves as a total constant function for tables with
zero or one control points. -/
theorem claim_C9_piecewise_evaluate (c : LinearInterp) (x : ℚ)
    (hs : SortedStrict c.points) :
    (c.points = [] → c.Evaluate x = c.empty_value) ∧
    (∀ a b : ℚ, c.points = [(a, b)] → c.Evaluate x = b) ∧
    (∀ hne : c.points ≠ [],
      x ≤ (c.points.head hne).1 → c.Evaluate x = (c.points.head hne).2) ∧
    (∀ hne : c.points ≠ [],
      (c.points.getLast hne).1 ≤ x → c.Evaluate x = (c.points.getLast hne).2) ∧
    (∀ (i : ℕ) (hlen : i + 1 < c.points.length),
      (c.points.get ⟨i, Nat.lt_of_succ_lt hlen⟩).1 ≤ x →
      x ≤ (c.points.get ⟨i + 1, hlen⟩).1 →
      c.Evaluate x =
        lerp (c.points.get ⟨i, Nat.lt_of_succ_lt hlen⟩)
             (c.points.get ⟨i + 1, hlen⟩) x) := by
  refine ⟨?_, ?_, ?_, ?_, ?_⟩
  · intro h
    obtain ⟨d, pts⟩ := c
    simp only at h
    subst h
    rfl
  · intro a b h
    obtain ⟨d, pts⟩ := c
    simp only at h
    subst h
    show (if x ≤ a then b else evalSeg (a, b) [] x) = b
    split_ifs <;> rfl
  · intro hne hx
    obtain ⟨d, pts⟩ := c
    cases pts with
    | nil => exact absurd rfl hne
    | cons p rest =>
      show (if x ≤ p.1 then p.2 else evalSeg p rest x) = p.2
      rw [if_pos (show x ≤ p.1 from hx)]
  · exact fun hne hx => evaluate_getLast c x hs hne hx
  · exact fun i hlen hl hr => evaluate_bracket i c.empty_value c.points x hs hlen hl hr

/-- Claim C9 witness: an empty table is the constant `7`, a one-point table
the constant `5`, and on the two-point table `(0,1),(1,3)` evaluation clamps
to `1` below the domain, to `3` above it, and interpolates to `2` at the
midpoint. -/
theorem claim_C9_witness :
    LinearInterp.Evaluate ⟨7, []⟩ 5 = 7 ∧
    LinearInterp.Evaluate ⟨7, [(2, 5)]⟩ 100 = 5 ∧
    LinearInterp.Evaluate ⟨7, [(0, 1), (1, 3)]⟩ (-1) = 1 ∧
    LinearInterp.Evaluate ⟨7, [(0, 1), (1, 3)]⟩ 5 = 3 ∧
    LinearInterp.Evaluate ⟨7, [(0, 1), (1, 3)]⟩ (1/2) = 2 := by
  have hs2 : SortedStrict [((0 : ℚ), (1 : ℚ)), ((1 : ℚ), (3 : ℚ))] := by
    simp [SortedStrict]
  refine ⟨?_, ?_, ?_, ?_, ?_⟩
  · exact (claim_C9_piecewise_evaluate ⟨7, []⟩ 5 (by simp [SortedStrict])).1 rfl
  · exact (claim_C9_piecewise_evaluate ⟨7, [(2, 5)]⟩ 100
      (by simp [SortedStrict])).2.1 2 5 rfl
  · exact (claim_C9_piecewise_evaluate ⟨7, [(0, 1), (1, 3)]⟩ (-1) hs2).2.2.1
      (by simp) (by norm_num)
  · exact (claim_C9_piecewise_evaluate ⟨7, [(0, 1), (1, 3)]⟩ 5 hs2).2.2.2.1
      (by simp) (by norm_num)
  · have h := (claim_C9_piecewise_evaluate ⟨7, [(0, 1), (1, 3)]⟩ (1/2)
      hs2).2.2.2.2 0 (by norm_num) (by norm_num) (by norm_num)
    rw [h]
    norm_num [lerp]

/-- Claim C8: serializing and then deserializing the mutable run-time state
restores exactly the fields `steering_angle`, `displacement`,
`last_displacement`, `force`, and the serialized record lists them in that
fixed order. -/
theorem claim_C8_serialize_round_trip (s t : CarSuspension) :
    t.Deserialize s.Serialize =
      some { t with steering_angle := s.steering_angle,
                    displacement := s.displacement,
                    last_displacement := s.last_displacement,
                    force := s.force } ∧
    s.Deserialize s.Serialize = some s ∧
    s.Serialize =
      [s.steering_angle, s.displacement, s.last_displacement, s.force] :=
  ⟨rfl, rfl, rfl⟩

end VDrift

/-- Claim C10: `LOADINGSCREEN::Update` clamps the percentage to `[0, 1]`
before computing the progress-bar geometry, so any input below 0 produces
exactly the same bar vertices as 0 and any input above 1 the same vertices
as 1. -/
theorem claim_C10_update_clamps (v : LOADINGSCREEN.Vars) (p : ℚ) :
    (p < 0 → LOADINGSCREEN.Update v p = LOADINGSCREEN.Update v 0) ∧
    (p > 1 → LOADINGSCREEN.Update v p = LOADINGSCREEN.Update v 1) := by
  constructor
  · intro h
    simp only [LOADINGSCREEN.Update, if_pos h]
    norm_num
  · intro h
    simp only [LOADINGSCREEN.Update, if_neg (by linarith : ¬ p < 0), if_pos h]
    norm_num

/-- A concrete loading-screen geometry (display width 512: w = h = 0.25,
hscale = 0.3 as set by `Init`). -/
def testVars : LOADINGSCREEN.Vars := ⟨1/4, 1/4, 3/10⟩

/-- Claim C10 witness: on the concrete geometry, input -1 gives the same bar
vertices as 0 and input 2 the same as 1. -/
theorem claim_C10_witness :
    LOADINGSCREEN.Update testVars (-1) = LOADINGSCREEN.Update testVars 0 ∧
    LOADINGSCREEN.Update testVars 2 = LOADINGSCREEN.Update testVars 1 :=
  ⟨(claim_C10_update_clamps testVars (-1)).1 (by norm_num),
   (claim_C10_update_clamps testVars 2).2 (by norm_num)⟩
